import Mathlib

/-!
Verification development for the bill-chatbot OCR pipeline
(`src/server/ocr_api.py`).  The Python source is shallowly embedded:
pure functions become Lean functions, JSON values become the inductive
`JVal`, Python dicts become insertion-ordered association lists, and
fallible code returns `Except`/`Option`.  Machine floats are modelled
as rationals (`ℚ`); every arithmetic step the code performs on them
(comparison, clamping, doubling) is exact on the values used here.
-/

set_option autoImplicit false

namespace OcrApi

/-- Config constant `RETRY_MAX = 4` from ocr_api.py. -/
def RETRY_MAX : Nat := 4

/-- Config constant `RETRY_BASE_DELAY = 1.25` (seconds) from ocr_api.py. -/
def RETRY_BASE_DELAY : ℚ := 1.25

/-- Config constant `MAX_CONCURRENCY = 2` from ocr_api.py. -/
def MAX_CONCURRENCY : Nat := 2

/-- The closed `TYPE_ORDER` enumeration of document types (ocr_api.py). -/
def TYPE_ORDER : List String :=
  ["TaxInvoice", "EWayBill", "LorryReceipt", "PackingList", "DeliveryChallan",
   "PurchaseOrder", "CreditNote", "DebitNote", "PaymentAdvice", "ZetwerkInspectionReport",
   "MaterialReport", "WeighmentSlip", "TestCertificate", "GatePass", "BillOfLading",
   "QuotationProforma", "Unknown"]

/-- JSON values as produced by `json.loads`.  Numbers are modelled as
rationals (Python distinguishes int/float; none of the verified code
paths depend on that distinction). -/
inductive JVal where
  | null : JVal
  | bool (b : Bool) : JVal
  | num (q : ℚ) : JVal
  | str (s : String) : JVal
  | arr (xs : List JVal) : JVal
  | obj (kvs : List (String × JVal)) : JVal
deriving Repr

/-- A Python dict with string keys, modelled as an insertion-ordered
association list with unique keys (all constructions below preserve
uniqueness the way `dict` does). -/
abbrev JDict := List (String × JVal)

/-- Dict membership test (`key in d`). -/
def dhasKey (d : JDict) (k : String) : Bool :=
  d.any (fun kv => kv.1 = k)

/-- Dict lookup (`d.get(key)`): first entry with the key. -/
def dlookup (d : JDict) (k : String) : Option JVal :=
  match d with
  | [] => none
  | (k', v) :: rest => if k' = k then some v else dlookup rest k

/-- Dict assignment `d[key] = v`: overwrite the first entry with the
key in place, else append a new entry (CPython dict semantics). -/
def dset (d : JDict) (k : String) (v : JVal) : JDict :=
  match d with
  | [] => [(k, v)]
  | (k', w) :: rest => if k' = k then (k', v) :: rest else (k', w) :: dset rest k v

/-- Page-index list as a JSON array value. -/
def spanArr (flat : List Int) : JVal :=
  .arr (flat.map (fun i => .num (i : ℚ)))

/-- Python truthiness of a JSON value (`bool(x)`). -/
def jFalsy : JVal → Bool
  | .null => true
  | .bool b => !b
  | .num q => q = 0
  | .str s => s.isEmpty
  | .arr xs => xs.isEmpty
  | .obj kvs => kvs.isEmpty

/-- Model of the pydantic `PageResult` record. -/
structure PageResult where
  page_index : Int
  doc_type : String
  confidence : ℚ
  brief_summary : Option String := none
  key_hints : Option (List String) := none
deriving Repr, DecidableEq

/-- Model of the pydantic `ExtractedGroup` record. -/
structure ExtractedGroup where
  doc_type : String
  page_spans : List (List Int)
  data : JDict
deriving Repr

/-- Model of the pydantic `OCRResponse` record (timings omitted:
they are wall-clock measurements outside the embedding). -/
structure OCRResponse where
  num_pages : Nat
  page_results : List PageResult
  grouped_results : List ExtractedGroup
deriving Repr

/-! ### Grouping (`chunk_consecutive_by_type`, ocr_api.py lines 797-808)

The Python function returns `Dict[str, List[List[int]]]`; the dict is
modelled as an insertion-ordered association list.  `setdefault(t, []).append(c)`
appends the chunk to the (unique) entry for `t`, inserting a fresh
entry at the end when the key is absent. -/

/-- `groups.setdefault(ty, []).append(chunk)` on the dict model. -/
def setdefaultAppend (groups : List (String × List (List Int)))
    (ty : String) (chunk : List Int) : List (String × List (List Int)) :=
  match groups with
  | [] => [(ty, [chunk])]
  | g :: gs =>
    if g.1 = ty then (g.1, g.2 ++ [chunk]) :: gs
    else g :: setdefaultAppend gs ty chunk

/-- The scan loop of `chunk_consecutive_by_type`: `cur_type`/`cur_chunk`
accumulate the current run; a type change flushes the run into the dict. -/
def chunkLoop (groups : List (String × List (List Int)))
    (curType : String) (curChunk : List Int) :
    List PageResult → List (String × List (List Int))
  | [] => setdefaultAppend groups curType curChunk
  | p :: rest =>
    if p.doc_type = curType then
      chunkLoop groups curType (curChunk ++ [p.page_index]) rest
    else
      chunkLoop (setdefaultAppend groups curType curChunk) p.doc_type [p.page_index] rest

/-- `chunk_consecutive_by_type(pages)`: partition the page sequence into
maximal runs of equal `doc_type`, grouped in a dict keyed by type. -/
def chunk_consecutive_by_type (pages : List PageResult) : List (String × List (List Int)) :=
  match pages with
  | [] => []
  | p :: rest => chunkLoop [] p.doc_type [p.page_index] rest

/-- All page indices of a grouping result, in emission order: dict
entries in insertion order, each entry's spans concatenated. -/
def emissionFlatten (groups : List (String × List (List Int))) : List Int :=
  groups.flatMap (fun g => g.2.flatten)

/-- The keys of the grouping dict, in insertion order. -/
def groupKeys (groups : List (String × List (List Int))) : List String :=
  groups.map Prod.fst

/-- The sequence of run types starting from a current run of type `t`:
one entry per maximal run of consecutive equal `doc_type`. -/
def runTypesFrom (t : String) : List PageResult → List String
  | [] => [t]
  | p :: rest => if p.doc_type = t then runTypesFrom t rest
                 else t :: runTypesFrom p.doc_type rest

/-- The sequence of run types of a page list (one entry per maximal run). -/
def runTypes : List PageResult → List String
  | [] => []
  | p :: rest => runTypesFrom p.doc_type rest

/-- First-occurrence deduplication relative to already-seen keys. -/
def dedupFAux (seen : List String) : List String → List String
  | [] => []
  | t :: ts => if t ∈ seen then dedupFAux seen ts else t :: dedupFAux (t :: seen) ts

/-- First-occurrence deduplication (insertion order of dict keys). -/
def dedupF (ts : List String) : List String := dedupFAux [] ts

/-! ### A model of `json.loads` (used by the reply-parsing chain)

Executable recursive-descent parser over `List Char` with fuel.
Coverage matches what the verified properties need: objects, arrays,
strings with the common escapes, integer/decimal numbers, `true`,
`false`, `null`.  Exotic corners of Python's parser (`\u` escapes,
exponents, leading-zero rejection) are outside the model; no theorem
below depends on them. -/

/-- JSON whitespace (space, tab, newline, carriage return). -/
def jsonWs (c : Char) : Bool :=
  c = ' ' || c = '\t' || c = '\n' || c = '\r'

/-- Python `\s` / `str.strip()` whitespace (adds vertical tab and form feed). -/
def pyWs (c : Char) : Bool :=
  c = ' ' || c = '\t' || c = '\n' || c = '\r' || c = '\x0b' || c = '\x0c'

/-- Left brace character (written via its code point). -/
def lbrace : Char := Char.ofNat 123

/-- Right brace character (written via its code point). -/
def rbrace : Char := Char.ofNat 125

/-- Backtick character (written via its code point). -/
def btick : Char := Char.ofNat 96

/-- Drop an expected literal character sequence, returning the rest. -/
def dropLit : List Char → List Char → Option (List Char)
  | [], cs => some cs
  | _ :: _, [] => none
  | l :: ls, c :: cs => if c = l then dropLit ls cs else none

/-- Split a leading run of decimal digits from the input. -/
def takeDigits : List Char → List Char × List Char
  | [] => ([], [])
  | c :: cs =>
    if c.isDigit then
      let (ds, r) := takeDigits cs
      (c :: ds, r)
    else ([], c :: cs)

/-- Numeric value of a digit string. -/
def digitsVal (ds : List Char) : Nat :=
  ds.foldl (fun a c => a * 10 + (c.toNat - 48)) 0

/-- Parse a JSON number (optional minus, integer part, optional fraction). -/
def parseNumber (cs : List Char) : Option (ℚ × List Char) :=
  let (neg, cs1) :=
    match cs with
    | '-' :: r => (true, r)
    | _ => (false, cs)
  let (ds, cs2) := takeDigits cs1
  if ds.isEmpty then none
  else
    let ip : ℚ := (digitsVal ds : ℚ)
    let step : Option (ℚ × List Char) :=
      match cs2 with
      | '.' :: r =>
        let (fs, r2) := takeDigits r
        if fs.isEmpty then none
        else some (ip + (digitsVal fs : ℚ) / ((10 : ℚ) ^ fs.length), r2)
      | _ => some (ip, cs2)
    step.map (fun p => (if neg then -p.1 else p.1, p.2))

/-- Parse the body of a JSON string after the opening quote,
returning the decoded characters and the input after the closing quote. -/
def parseStringBody : Nat → List Char → Option (List Char × List Char)
  | 0, _ => none
  | _, [] => none
  | fuel + 1, c :: cs =>
    if c = '"' then some ([], cs)
    else if c = '\\' then
      match cs with
      | [] => none
      | e :: cs2 =>
        let ec : Option Char :=
          if e = '"' then some '"'
          else if e = '\\' then some '\\'
          else if e = '/' then some '/'
          else if e = 'n' then some '\n'
          else if e = 't' then some '\t'
          else if e = 'r' then some '\r'
          else none
        match ec with
        | none => none
        | some d =>
          match parseStringBody fuel cs2 with
          | some (body, rest) => some (d :: body, rest)
          | none => none
    else
      match parseStringBody fuel cs with
      | some (body, rest) => some (c :: body, rest)
      | none => none

/-- Drop leading JSON whitespace. -/
def skipWs (cs : List Char) : List Char :=
  cs.dropWhile jsonWs

mutual

/-- Parse one JSON value (after optional leading whitespace). -/
def parseVal : Nat → List Char → Option (JVal × List Char)
  | 0, _ => none
  | fuel + 1, cs =>
    match skipWs cs with
    | [] => none
    | c :: rest =>
      if c = '"' then
        match parseStringBody (rest.length + 1) rest with
        | some (b, r) => some (.str (String.mk b), r)
        | none => none
      else if c = lbrace then
        match skipWs rest with
        | c2 :: r2 =>
          if c2 = rbrace then some (.obj [], r2)
          else
            match parseObjItems fuel (skipWs rest) with
            | some (kvs, r) =>
              some (.obj (kvs.foldl (fun d kv => dset d kv.1 kv.2) []), r)
            | none => none
        | [] => none
      else if c = '[' then
        match skipWs rest with
        | c2 :: r2 =>
          if c2 = ']' then some (.arr [], r2)
          else
            match parseArrItems fuel (skipWs rest) with
            | some (xs, r) => some (.arr xs, r)
            | none => none
        | [] => none
      else if c = 't' then
        (dropLit ['r', 'u', 'e'] rest).map (fun r => (.bool true, r))
      else if c = 'f' then
        (dropLit ['a', 'l', 's', 'e'] rest).map (fun r => (.bool false, r))
      else if c = 'n' then
        (dropLit ['u', 'l', 'l'] rest).map (fun r => (.null, r))
      else
        (parseNumber (c :: rest)).map (fun p => (.num p.1, p.2))

/-- Parse `"key": value` pairs up to the closing brace, returned as the
raw ordered pair list (the caller folds `dset` over it, so duplicate
keys behave exactly like Python dict construction: last value wins at
the first key's position). -/
def parseObjItems : Nat → List Char → Option (List (String × JVal) × List Char)
  | 0, _ => none
  | fuel + 1, cs =>
    match skipWs cs with
    | [] => none
    | c :: rest =>
      if c = '"' then
        match parseStringBody (rest.length + 1) rest with
        | none => none
        | some (k, r1) =>
          match skipWs r1 with
          | ':' :: r2 =>
            match parseVal fuel r2 with
            | none => none
            | some (v, r3) =>
              match skipWs r3 with
              | [] => none
              | c4 :: r4 =>
                if c4 = ',' then
                  match parseObjItems fuel r4 with
                  | some (kvs, r5) => some ((String.mk k, v) :: kvs, r5)
                  | none => none
                else if c4 = rbrace then some ([(String.mk k, v)], r4)
                else none
          | _ => none
      else none

/-- Parse array elements up to the closing bracket. -/
def parseArrItems : Nat → List Char → Option (List JVal × List Char)
  | 0, _ => none
  | fuel + 1, cs =>
    match parseVal fuel cs with
    | none => none
    | some (v, r1) =>
      match skipWs r1 with
      | [] => none
      | c2 :: r2 =>
        if c2 = ',' then
          match parseArrItems fuel r2 with
          | some (xs, r3) => some (v :: xs, r3)
          | none => none
        else if c2 = ']' then some ([v], r2)
        else none

end

/-- Model of `json.loads`: parse one value and require only whitespace
after it. -/
def json_loads (s : String) : Option JVal :=
  match parseVal (s.length + 1) s.data with
  | some (v, rest) => if (skipWs rest).isEmpty then some v else none
  | none => none

/-- Model of Python `float(x)` on a JSON value: numbers and booleans
convert; numeric strings are parsed (sign, digits, optional fraction);
everything else raises, modelled as `none`. -/
def pyFloat : JVal → Option ℚ
  | .num q => some q
  | .bool b => some (if b then 1 else 0)
  | .str s =>
    match parseNumber (s.data.dropWhile pyWs) with
    | some (q, rest) => if (rest.dropWhile pyWs).isEmpty then some q else none
    | none => none
  | _ => none

/-- Model of Python `int(x)` on a JSON value: floats truncate toward
zero, booleans convert, integer-literal strings parse, everything else
raises (`Except.error`). -/
def pyInt : JVal → Except String Int
  | .num q => .ok (q.num.tdiv q.den)
  | .bool b => .ok (if b then 1 else 0)
  | .str s =>
    match s.toInt? with
    | some n => .ok n
    | none => .error "ValueError"
  | _ => .error "TypeError"

/-- `if doc_type not in TYPE_ORDER: doc_type = "Unknown"` applied to a
JSON value: only a string member of the closed set survives. -/
def docTypeResolve : JVal → String
  | .str s => if s ∈ TYPE_ORDER then s else "Unknown"
  | _ => "Unknown"

/-- Python `min(a, b)`. -/
def rmin (a b : ℚ) : ℚ := if a ≤ b then a else b

/-- Python `max(a, b)`. -/
def rmax (a b : ℚ) : ℚ := if b ≤ a then a else b

/-- `conf = max(0.0, min(1.0, conf))`. -/
def clamp01 (x : ℚ) : ℚ := rmax 0 (rmin 1 x)

/-! ### Field-level merge (ocr_api.py lines 1030-1040 and 1172-1182)

The combine loop of `ocr_endpoint` / the sequential `ocr_stream_endpoint`:
for each key of a page's extraction dict, absent keys are inserted,
list-list pairs are concatenated, a null accumulator is replaced by a
non-null page value, and anything else keeps the accumulator's value.
Finally `pages_used` is overwritten with the flattened span. -/

/-- True for `JVal.arr` (Python `isinstance(x, list)`). -/
def isArr : JVal → Bool
  | .arr _ => true
  | _ => false

/-- True for `JVal.null` (Python `x is None`). -/
def isNull : JVal → Bool
  | .null => true
  | _ => false

/-- One iteration of the combine loop body for key `k` with page value `v`. -/
def mergeStep (acc : JDict) (k : String) (v : JVal) : JDict :=
  match dlookup acc k with
  | none => acc ++ [(k, v)]
  | some w =>
    match w, v with
    | .arr ws, .arr vs => dset acc k (.arr (ws ++ vs))
    | .null, .null => acc
    | .null, v' => dset acc k v'
    | _, _ => acc

/-- Merge one page's extraction dict into the accumulator
(the inner `for key, value in page_data.items()` loop). -/
def mergePage (acc : JDict) (page : JDict) : JDict :=
  page.foldl (fun a kv => mergeStep a kv.1 kv.2) acc

/-- Merge a group's per-page extraction dicts (ascending page order)
and stamp `pages_used` with the flattened span. -/
def combineGroup (records : List JDict) (pagesFlat : List Int) : JDict :=
  dset (records.foldl mergePage []) "pages_used" (spanArr pagesFlat)

/-! ### Reply parsing chain (ocr_api.py lines 485-504 and 622-649)

`try json.loads(content)`, then strip/BOM-clean and retry, then extract
the first fenced code block with
`re.search(r three-backticks (?:json)? \s* (brace .*? brace) \s* three-backticks, content, re.DOTALL)`
and parse the captured group.  The regex model implements the leftmost
match with lazy group expansion. -/

/-- Python `content.strip().lstrip(BOM)`: strip whitespace from both
ends, then drop any leading byte-order marks. -/
def pyCleaned (s : String) : String :=
  let stripped := ((s.data.dropWhile pyWs).reverse.dropWhile pyWs).reverse
  String.mk (stripped.dropWhile (fun c => c = Char.ofNat 0xFEFF))

/-- The three-backtick fence marker. -/
def fenceChars : List Char := [btick, btick, btick]

/-- Does a closing fence follow (after regex whitespace)? -/
def fenceFollows (cs : List Char) : Bool :=
  (dropLit fenceChars (cs.dropWhile pyWs)).isSome

/-- Lazy expansion of the captured group: scan for the first closing
brace such that a fence follows; earlier closing braces are absorbed
into the group (the regex `.*?` with DOTALL). -/
def lazyClose (acc : List Char) : List Char → Option (List Char)
  | [] => none
  | c :: rest =>
    if c = rbrace && fenceFollows rest then some (acc.reverse ++ [rbrace])
    else lazyClose (c :: acc) rest

/-- Try to match the fenced-JSON pattern at this exact position:
fence, optional `json` tag, whitespace, then the lazily-closed brace
group. -/
def fencedAt (cs : List Char) : Option (List Char) :=
  match dropLit fenceChars cs with
  | none => none
  | some cs1 =>
    let cs2 :=
      match dropLit ['j', 's', 'o', 'n'] cs1 with
      | some r => r
      | none => cs1
    match cs2.dropWhile pyWs with
    | c :: rest =>
      if c = lbrace then (lazyClose [] rest).map (fun g => lbrace :: g)
      else none
    | [] => none

/-- Leftmost search for the fenced-JSON pattern (`re.search`). -/
def searchFenced : List Char → Option (List Char)
  | [] => none
  | c :: rest =>
    match fencedAt (c :: rest) with
    | some g => some g
    | none => searchFenced rest

/-- Extract the first fenced JSON group from a reply, as a string. -/
def extract_markdown_json (s : String) : Option String :=
  (searchFenced s.data).map String.mk

/-- The ordered reply-parsing fallback chain: raw parse, then
strip/BOM-cleaned parse, then fenced-block extraction and parse.
`none` models `MalformedReplyError` (HTTP 502 "No valid JSON response"). -/
def parseReplyChain (content : String) : Option JVal :=
  match json_loads content with
  | some v => some v
  | none =>
    match json_loads (pyCleaned content) with
    | some v => some v
    | none =>
      match extract_markdown_json content with
      | some g => json_loads g
      | none => none

/-! ### Retry loop (`create_openai_thread`, ocr_api.py lines 299-328)

One attempt per loop iteration; the environment `Nat → Resp` gives the
outcome of each HTTP attempt.  Key control-flow fact embedded here: the
`raise HTTPException` for a non-transient status sits inside the `try`,
so it is caught by the blanket `except Exception` and retried exactly
like a transport exception. -/

/-- Outcome of one HTTP attempt: a status code, or a transport-level
exception raised by the request itself. -/
inductive Resp where
  | status (code : Nat) : Resp
  | exn : Resp
deriving Repr, DecidableEq

/-- The transient ("retryable") status codes of ocr_api.py. -/
def transientCodes : List Nat := [429, 500, 502, 503, 504]

/-- Trace of a retry loop: HTTP attempts made, sleeps performed
(seconds, in order), and whether the call ultimately succeeded
(`ok = false` models the final `HTTPException(502)`). -/
structure RetryTrace where
  attempts : Nat
  delays : List ℚ
  ok : Bool
deriving Repr, DecidableEq

/-- The `for attempt in range(RETRY_MAX)` loop of `create_openai_thread`.
`fuel` is the number of remaining iterations, `k` the current attempt
index; `attempt < RETRY_MAX - 1` is exactly `fuel ≠ 0` after the
pattern `fuel + 1`. -/
def ctLoop (env : Nat → Resp) : Nat → Nat → List ℚ → RetryTrace
  | 0, k, acc => ⟨k, acc.reverse, false⟩
  | fuel + 1, k, acc =>
    match env k with
    | .status c =>
      if c = 200 || c = 201 then ⟨k + 1, acc.reverse, true⟩
      else if c ∈ transientCodes then
        if fuel ≠ 0 then ctLoop env fuel (k + 1) (RETRY_BASE_DELAY * 2 ^ k :: acc)
        else ⟨k + 1, acc.reverse, false⟩
      else
        -- non-transient: `raise HTTPException(502, ...)` is caught by
        -- `except Exception` and falls into the same retry branch
        if fuel ≠ 0 then ctLoop env fuel (k + 1) (RETRY_BASE_DELAY * 2 ^ k :: acc)
        else ⟨k + 1, acc.reverse, false⟩
    | .exn =>
      if fuel ≠ 0 then ctLoop env fuel (k + 1) (RETRY_BASE_DELAY * 2 ^ k :: acc)
      else ⟨k + 1, acc.reverse, false⟩

/-- Retry behaviour of `create_openai_thread` for a given environment. -/
def create_openai_thread_retry (env : Nat → Resp) : RetryTrace :=
  ctLoop env RETRY_MAX 0 []

/-- The `for attempt in range(1, RETRY_MAX + 1)` loop of
`openai_json_response`: every exception is retried, and the loop sleeps
`RETRY_BASE_DELAY * 2 ^ (attempt - 1)` even after the final failed
attempt before raising HTTP 502.  `env k = true` means attempt `k`
(1-based) succeeds. -/
def ojrLoop (env : Nat → Bool) : Nat → Nat → List ℚ → RetryTrace
  | 0, k, acc => ⟨k - 1, acc.reverse, false⟩
  | fuel + 1, k, acc =>
    if env k then ⟨k, acc.reverse, true⟩
    else ojrLoop env fuel (k + 1) (RETRY_BASE_DELAY * 2 ^ (k - 1) :: acc)

/-- Retry behaviour of `openai_json_response` for a given environment. -/
def openai_json_response_retry (env : Nat → Bool) : RetryTrace :=
  ojrLoop env RETRY_MAX 1 []

/-! ### Completion polling (`run_thread_with_assistant`, ocr_api.py lines 392-433)

The state machine on run statuses, decoupled from the HTTP-level retry
wrapper: `delay = 0.1`; on a non-terminal status sleep `delay` and set
`delay = min(delay * 1.5, 2.0)`; `completed` exits to fetching the
reply; `failed`/`cancelled`/`expired` raise `HTTPException(502)`.
The loop is observed along a finite prefix of the status stream;
`stillPolling` is the outcome when the prefix ends with no terminal
status (the code itself has no overall bound and keeps polling). -/

/-- Outcome of the polling state machine on a finite status prefix. -/
inductive PollOutcome where
  | completed : PollOutcome
  | runFailed (s : String) : PollOutcome
  | stillPolling : PollOutcome
deriving Repr, DecidableEq

/-- Run statuses treated as terminal failures by the code. -/
def terminalFailures : List String := ["failed", "cancelled", "expired"]

/-- Backoff update: `delay = min(delay * 1.5, 2.0)`. -/
def pollNext (d : ℚ) : ℚ := min (d * 1.5) 2

/-- The polling loop over a finite prefix of observed statuses, with
current delay `d`; returns the sleeps performed and the outcome. -/
def pollLoop : List String → ℚ → List ℚ × PollOutcome
  | [], _ => ([], .stillPolling)
  | s :: rest, d =>
    if s = "completed" then ([], .completed)
    else if s ∈ terminalFailures then ([], .runFailed s)
    else
      let r := pollLoop rest (pollNext d)
      (d :: r.1, r.2)

/-- Polling behaviour of `run_thread_with_assistant` (initial delay 0.1). -/
def run_thread_poll (sts : List String) : List ℚ × PollOutcome :=
  pollLoop sts 0.1

/-! ### Per-page processing (`process_page_with_thread`, ocr_api.py lines 669-771)

The remote service is abstracted by a `PageEnv`: the outcome of each
network interaction of one page's workflow (thread creation, the two
message submissions, the two run-and-parse round trips).  Each outcome
is `Except String _`; an `error` stands for the exception the Python
call would raise (retry exhaustion, run failure, malformed reply —
all surface as exceptions of the corresponding helper). -/

/-- Environment of one page's workflow: outcomes of its remote calls. -/
structure PageEnv where
  assistantsOk : Bool
  createThread : Except String String
  sendClassify : Except String Unit
  classifyReply : Except String JVal
  sendExtract : Except String Unit
  extractReply : Except String JVal

/-- The degraded result of the `except` branch (and of the
missing-assistants early return): `Unknown`, confidence 0, empty dict. -/
def degradedResult (pageIndex : Int) : PageResult × JVal :=
  (⟨pageIndex, "Unknown", 0, none, none⟩, .obj [])

/-- The `try` body of `process_page_with_thread`: create thread, send
classification turn, run and parse, resolve `doc_type` against
`TYPE_ORDER`, send extraction turn, run and parse, clamp confidence,
read `page_index` from the reply (`int()` may raise), and stamp
`pages_used = [page_index]` unconditionally when the extraction reply
is a dict. -/
def processPageTry (env : PageEnv) (pageIndex : Int) :
    Except String (PageResult × JVal) :=
  match env.createThread with
  | .error e => .error e
  | .ok _ =>
    match env.sendClassify with
    | .error e => .error e
    | .ok _ =>
      match env.classifyReply with
      | .error e => .error e
      | .ok cls =>
        match cls with
        | .obj d =>
          -- `classification_result.get("doc_type", "Unknown")`, forced into
          -- TYPE_ORDER; the extraction turn follows (schema selection only
          -- influences the prompt text, which carries no verified content)
          let doc_type := docTypeResolve ((dlookup d "doc_type").getD (.str "Unknown"))
          match env.sendExtract with
          | .error e => .error e
          | .ok _ =>
            match env.extractReply with
            | .error e => .error e
            | .ok ext =>
              let conf := clamp01 ((pyFloat ((dlookup d "confidence").getD (.num 0))).getD 0)
              match (match dlookup d "page_index" with
                     | none => Except.ok pageIndex
                     | some v => pyInt v) with
              | .error e => .error e
              | .ok pi =>
                .ok (⟨pi, doc_type, conf, none, none⟩,
                  match ext with
                  | .obj de =>
                    JVal.obj (dset de "pages_used" (.arr [.num (pageIndex : ℚ)]))
                  | v => v)
        | _ =>
          -- a non-dict classification reply raises at the first
          -- `classification_result.get(...)` call
          .error "AttributeError"

/-- `process_page_with_thread`: the whole function.  Missing assistants
short-circuit to the degraded result; any exception of the `try` body
is caught and converted to the degraded result; the `finally` thread
deletion is best-effort and never raises (its own retry loop swallows
every failure), so it does not influence the returned value. -/
def process_page_with_thread (env : PageEnv) (pageIndex : Int) : PageResult × JVal :=
  if env.assistantsOk then
    match processPageTry env pageIndex with
    | .ok r => r
    | .error _ => degradedResult pageIndex
  else degradedResult pageIndex

/-- A page workflow counts as failed when the assistants are missing or
the `try` body raises (retry exhaustion, run failure, malformed reply,
non-dict reply, unparsable `page_index` — every error path of
`processPageTry`). -/
def pageFailed (env : PageEnv) (i : Int) : Prop :=
  env.assistantsOk = false ∨ ∃ e, processPageTry env i = .error e

/-- The fan-out of `ocr_endpoint` starting at page index `k`: one task
per page in index order. -/
def ocrProcessPagesFrom (k : Nat) : List PageEnv → List (PageResult × JVal)
  | [] => []
  | e :: rest => process_page_with_thread e (k : Int) :: ocrProcessPagesFrom (k + 1) rest

/-- The fan-out of `ocr_endpoint`: one task per page (`for i in
range(len(b64_images))`), results gathered in task order
(`asyncio.gather` preserves the order of its arguments). -/
def ocrProcessPages (envs : List PageEnv) : List (PageResult × JVal) :=
  ocrProcessPagesFrom 0 envs

/-- The `page_results` list of `ocr_endpoint`. -/
def ocrPageResults (envs : List PageEnv) : List PageResult :=
  (ocrProcessPages envs).map Prod.fst

/-- The `extraction_data_per_page` list of `ocr_endpoint`. -/
def ocrExtractionData (envs : List PageEnv) : List JVal :=
  (ocrProcessPages envs).map Prod.snd

/-- All-string JSON array to `List String` (the loose validation-layer
coercions of pydantic are not modelled; no verified claim reads these
optional fields). -/
def jStrList (xs : List JVal) : Option (List String) :=
  xs.mapM (fun v => match v with | .str s => some s | _ => none)

/-- One page of `classify_pages` (`_one`): the alternative
chat-completions path.  `obj` is the parsed reply.  A non-dict reply
reaches the unguarded `int(obj.get(...))` and raises
(`Except.error`); the guarded `doc_type`/`confidence` reads degrade to
`Unknown` / `0.0` instead.  `int(obj.get("page_index", i) or i)` uses
`i` when the reply value is falsy. -/
def classifyOne (obj : JVal) (i : Int) : Except String PageResult :=
  match obj with
  | .obj d =>
    let doc_type := docTypeResolve ((dlookup d "doc_type").getD .null)
    let conf := clamp01 ((pyFloat ((dlookup d "confidence").getD (.num 0))).getD 0)
    match (match dlookup d "page_index" with
           | none => Except.ok i
           | some v => if jFalsy v then Except.ok i else pyInt v) with
    | .error e => .error e
    | .ok pi =>
      .ok ⟨pi, doc_type, conf,
        (match dlookup d "brief_summary" with
         | some (.str s) => some s
         | _ => none),
        (match dlookup d "key_hints" with
         | some (.arr xs) => jStrList xs
         | _ => none)⟩
  | _ =>
    -- non-dict replies pass the guarded doc_type/confidence reads but
    -- raise at the unguarded `int(obj.get("page_index", i) or i)`
    .error "AttributeError"

/-! ### Group-level extraction (`extract_for_group`, ocr_api.py lines 819-844) -/

/-- `[i for span in page_spans for i in span]`. -/
def flattenSpans (spans : List (List Int)) : List Int := spans.flatten

/-- `extract_for_group`: with no registered schema it returns the
minimal stub; otherwise the (abstracted) remote reply is stamped with
`pages_used = pages_flat` only when that key is absent. -/
def extract_for_group (schemaFound : Bool) (page_spans : List (List Int))
    (reply : JVal) : JVal :=
  if schemaFound then
    match reply with
    | .obj d =>
      if dhasKey d "pages_used" then .obj d
      else .obj (dset d "pages_used" (spanArr (flattenSpans page_spans)))
    | v => v
  else
    .obj [("document_type", .str "Unknown"),
          ("pages_used", spanArr (flattenSpans page_spans))]

/-! ### Group combination (`ocr_endpoint` lines 1026-1045, sequential
stream lines 1168-1188)

The loop indexes `extraction_data_per_page` with the page indices taken
from the grouping spans; those come from `PageResult.page_index`, which
the remote reply may have overridden, so Python list-indexing semantics
(negative wrap-around, `IndexError`) are embedded faithfully. -/

/-- Python list indexing `xs[i]` with negative wrap-around;
out-of-range raises `IndexError`. -/
def pyIndex (xs : List JVal) (i : Int) : Except String JVal :=
  let j : Int := if i < 0 then (xs.length : Int) + i else i
  if j < 0 then Except.error "IndexError"
  else
    match xs.get? j.toNat with
    | some v => Except.ok v
    | none => Except.error "IndexError"

/-- The inner merge loop over a group's flattened page indices:
`if page_idx < len(...) and extraction_data_per_page[page_idx]:`,
then field-by-field merge; a truthy non-dict value makes `.items()`
raise. -/
def combineLoop (extr : List JVal) : List Int → JDict → Except String JDict
  | [], acc => Except.ok acc
  | i :: rest, acc =>
    if i < (extr.length : Int) then do
      let v ← pyIndex extr i
      if jFalsy v then combineLoop extr rest acc
      else
        match v with
        | .obj d => combineLoop extr rest (mergePage acc d)
        | _ => Except.error "AttributeError"
    else combineLoop extr rest acc

/-- The per-group body: flatten the spans, merge, stamp `pages_used`. -/
def combineForGroup (extr : List JVal) (spans : List (List Int)) :
    Except String JDict := do
  let flat := flattenSpans spans
  let combined ← combineLoop extr flat []
  Except.ok (dset combined "pages_used" (spanArr flat))

/-- The `for doc_type, spans in grouped_spans.items()` loop; the guard
`if spans and spans[0]:` skips entries whose span list (or first span)
is empty. -/
def buildGroupsLoop (extr : List JVal) :
    List (String × List (List Int)) → Except String (List ExtractedGroup)
  | [] => Except.ok []
  | (ty, spans) :: rest =>
    match spans with
    | [] => buildGroupsLoop extr rest
    | s0 :: _ =>
      if s0.isEmpty then buildGroupsLoop extr rest
      else do
        let combined ← combineForGroup extr spans
        let tail ← buildGroupsLoop extr rest
        Except.ok (⟨ty, spans, combined⟩ :: tail)

/-- Grouping plus combination, as performed downstream of page
processing. -/
def buildGroups (prs : List PageResult) (extr : List JVal) :
    Except String (List ExtractedGroup) :=
  buildGroupsLoop extr (chunk_consecutive_by_type prs)

/-- The `/ocr` batch endpoint downstream of rendering: process all
pages, group, combine; an uncaught exception of the combine loop aborts
the request (HTTP 500), modelled as `Except.error`. -/
def ocr_endpoint_response (envs : List PageEnv) : Except String OCRResponse := do
  let prs := ocrPageResults envs
  let extr := ocrExtractionData envs
  let groups ← buildGroups prs extr
  Except.ok ⟨envs.length, prs, groups⟩

/-! ### Streaming endpoints (ocr_api.py lines 874-964 and 1129-1212) -/

/-- Payload of a `complete` event: the concurrent variant sends only
page counts, the sequential variant sends the whole aggregate response. -/
inductive CompletePayload where
  | counts (total processed : Nat) : CompletePayload
  | aggregate (resp : OCRResponse) : CompletePayload

/-- Server-sent events of the two streaming endpoints.  `done` is the
terminal sentinel `data: [DONE]`.  Payloads not needed by any verified
property (timings, result bodies of page events) are elided. -/
inductive SEvent where
  | start (totalPages : Nat) : SEvent
  | status (msg : String) : SEvent
  | progress (stage : String) : SEvent
  | pageResult (idx : Nat) : SEvent
  | pageError (idx : Nat) : SEvent
  | complete (payload : CompletePayload) : SEvent
  | error (msg : String) : SEvent
  | done : SEvent

/-- Is an event the `done` sentinel? -/
def SEvent.isDone : SEvent → Bool
  | .done => true
  | _ => false

/-- One dequeued result in the concurrent stream's arrival order. -/
inductive Arrival where
  | ok (i : Nat) : Arrival
  | err (i : Nat) (msg : String) : Arrival
deriving Repr, DecidableEq

/-- `successful_pages`: slots of the result array filled by `ok`
arrivals (duplicates counted once). -/
def concProcessed (n : Nat) (arrivals : List Arrival) : Nat :=
  (arrivals.foldl
    (fun slots a =>
      match a with
      | .ok i => slots.set i true
      | .err _ _ => slots)
    (List.replicate n false)).count true

/-- The `/ocr-stream` (concurrent) generator: `start`, one
`page_result`/`page_error` event per arrival, then a `complete` event
carrying only the counts — and no sentinel.  `exnAfter = some (k, m)`
models an exception after the first `k` events were emitted: the
`except` branch yields a single `error` event — and again no sentinel. -/
def ocr_stream_concurrent (n : Nat) (arrivals : List Arrival)
    (exnAfter : Option (Nat × String)) : List SEvent :=
  let normal : List SEvent :=
    SEvent.start n ::
      arrivals.map (fun a =>
        match a with
        | .ok i => SEvent.pageResult i
        | .err i _ => SEvent.pageError i)
      ++ [SEvent.complete (.counts n (concProcessed n arrivals))]
  match exnAfter with
  | none => normal
  | some (k, m) => normal.take k ++ [SEvent.error m]

/-- The `/ocr/stream` (sequential) generator.  An invalid PDF yields an
`error` event and then `return`s — no sentinel follows.  On the normal
path pages are processed one at a time in index order; after grouping
and combining, a `complete` event carrying the aggregate response is
yielded, followed by the `[DONE]` sentinel.  An exception (here: from
the combine loop; any other exception site behaves the same through
the one `except` branch) yields an `error` event followed by `[DONE]`. -/
def ocr_stream_sequential (pdfOk : Bool) (envs : List PageEnv) : List SEvent :=
  if pdfOk then
    let prs := ocrPageResults envs
    let extr := ocrExtractionData envs
    let front : List SEvent :=
      [SEvent.status "Processing started...", SEvent.status "Rendering pages...",
       SEvent.progress "render", SEvent.status "Processing pages..."]
      ++ prs.map (fun _ => SEvent.progress "process")
      ++ [SEvent.progress "classify_complete",
          SEvent.status "document groups found",
          SEvent.status "Combining extraction data..."]
    match buildGroups prs extr with
    | .ok groups =>
      front ++ groups.map (fun _ => SEvent.progress "combine")
        ++ [SEvent.complete (.aggregate ⟨envs.length, prs, groups⟩), SEvent.done]
    | .error m => front ++ [SEvent.error m, SEvent.done]
  else
    [SEvent.status "Processing started...", SEvent.error "Invalid PDF"]

/-! ### Concrete sample environments used in witnesses and counterexamples -/

/-- A page whose remote calls all succeed: classified `TaxInvoice` with
confidence 1, extraction reply already carrying `pages_used = [9]`. -/
def envOkSample : PageEnv :=
  { assistantsOk := true
  , createThread := .ok "thread_1"
  , sendClassify := .ok ()
  , classifyReply := .ok (.obj [("doc_type", .str "TaxInvoice"), ("confidence", .num 1)])
  , sendExtract := .ok ()
  , extractReply := .ok (.obj [("invoice_no", .str "X1"), ("pages_used", .arr [.num 9])]) }

/-- A page whose classification run fails after retry exhaustion. -/
def envFailSample : PageEnv :=
  { envOkSample with classifyReply := .error "ServiceUnavailable" }

/-- A page whose classification reply reports `page_index = 7`. -/
def envPageIdx7 : PageEnv :=
  { envOkSample with
      classifyReply := .ok (.obj
        [("doc_type", .str "TaxInvoice"), ("confidence", .num 1),
         ("page_index", .num 7)]) }

end OcrApi

namespace OcrApi

/-! ## Theorems -/

/-! ### C1: grouping -/

theorem emissionFlatten_cons (g : String × List (List Int))
    (gs : List (String × List (List Int))) :
    emissionFlatten (g :: gs) = g.2.flatten ++ emissionFlatten gs := by
  simp [emissionFlatten]

theorem emissionFlatten_append (a b : List (String × List (List Int))) :
    emissionFlatten (a ++ b) = emissionFlatten a ++ emissionFlatten b := by
  simp [emissionFlatten]

theorem groupKeys_cons (g : String × List (List Int))
    (gs : List (String × List (List Int))) :
    groupKeys (g :: gs) = g.1 :: groupKeys gs := rfl

theorem setdefaultAppend_cons_hit (gk : String) (gv : List (List Int))
    (gs : List (String × List (List Int))) (chunk : List Int) :
    setdefaultAppend ((gk, gv) :: gs) gk chunk = (gk, gv ++ [chunk]) :: gs := by
  simp [setdefaultAppend]

theorem setdefaultAppend_cons_miss (gk : String) (gv : List (List Int))
    (gs : List (String × List (List Int))) (ty : String) (chunk : List Int)
    (h : ¬gk = ty) :
    setdefaultAppend ((gk, gv) :: gs) ty chunk
      = (gk, gv) :: setdefaultAppend gs ty chunk := by
  simp [setdefaultAppend, h]

theorem emissionFlatten_setdefaultAppend
    (groups : List (String × List (List Int))) (ty : String) (chunk : List Int) :
    (emissionFlatten (setdefaultAppend groups ty chunk)).Perm
      (emissionFlatten groups ++ chunk) := by
  induction groups with
  | nil => simp [setdefaultAppend, emissionFlatten]
  | cons g gs ih =>
    obtain ⟨gk, gv⟩ := g
    by_cases h : gk = ty
    · subst h
      rw [setdefaultAppend_cons_hit, emissionFlatten_cons, emissionFlatten_cons]
      have hflat : (gv ++ [chunk]).flatten = gv.flatten ++ chunk := by simp
      rw [hflat, List.append_assoc, List.append_assoc]
      exact List.Perm.append_left _ List.perm_append_comm
    · rw [setdefaultAppend_cons_miss gk gv gs ty chunk h, emissionFlatten_cons,
        emissionFlatten_cons, List.append_assoc]
      exact List.Perm.append_left _ ih

theorem setdefaultAppend_of_not_mem
    (groups : List (String × List (List Int))) (ty : String) (chunk : List Int) :
    ty ∉ groupKeys groups →
    setdefaultAppend groups ty chunk = groups ++ [(ty, [chunk])] := by
  induction groups with
  | nil => intro _; rfl
  | cons g gs ih =>
    intro h
    obtain ⟨gk, gv⟩ := g
    rw [groupKeys_cons] at h
    have h1 : ¬gk = ty := fun hh => h (hh ▸ List.mem_cons_self _ _)
    have h2 : ty ∉ groupKeys gs := fun hh => h (List.mem_cons_of_mem _ hh)
    rw [setdefaultAppend_cons_miss gk gv gs ty chunk h1, ih h2]
    rfl

theorem groupKeys_setdefaultAppend
    (groups : List (String × List (List Int))) (ty : String) (chunk : List Int) :
    groupKeys (setdefaultAppend groups ty chunk)
      = if ty ∈ groupKeys groups then groupKeys groups else groupKeys groups ++ [ty] := by
  induction groups with
  | nil => simp [setdefaultAppend, groupKeys]
  | cons g gs ih =>
    obtain ⟨gk, gv⟩ := g
    by_cases h : gk = ty
    · subst h
      rw [setdefaultAppend_cons_hit, groupKeys_cons, groupKeys_cons,
        if_pos (List.mem_cons_self _ _)]
    · rw [setdefaultAppend_cons_miss gk gv gs ty chunk h, groupKeys_cons,
        groupKeys_cons, ih]
      have hmemiff : ty ∈ gk :: groupKeys gs ↔ ty ∈ groupKeys gs := by
        constructor
        · intro hm
          rcases List.mem_cons.mp hm with h1 | h2
          · exact absurd h1.symm h
          · exact h2
        · exact fun hm => List.mem_cons_of_mem _ hm
      by_cases hm : ty ∈ groupKeys gs
      · rw [if_pos hm, if_pos (hmemiff.mpr hm)]
      · rw [if_neg hm, if_neg (fun hc => hm (hmemiff.mp hc))]
        rfl

theorem chunkLoop_flatten_perm (ps : List PageResult) :
    ∀ (groups : List (String × List (List Int))) (t : String) (c : List Int),
      (emissionFlatten (chunkLoop groups t c ps)).Perm
        (emissionFlatten groups ++ c ++ ps.map PageResult.page_index) := by
  induction ps with
  | nil =>
    intro groups t c
    simpa using emissionFlatten_setdefaultAppend groups t c
  | cons p rest ih =>
    intro groups t c
    by_cases h : p.doc_type = t
    · simp only [chunkLoop, if_pos h, List.map_cons]
      have := ih groups t (c ++ [p.page_index])
      simpa [List.append_assoc] using this
    · simp only [chunkLoop, if_neg h, List.map_cons]
      have h2 := ih (setdefaultAppend groups t c) p.doc_type [p.page_index]
      refine h2.trans ?_
      have h3 := emissionFlatten_setdefaultAppend groups t c
      have h4 := List.Perm.append_right ([p.page_index] ++ rest.map PageResult.page_index) h3
      refine List.Perm.trans (by simpa [List.append_assoc] using h4) ?_
      simp [List.append_assoc]

theorem chunkLoop_flatten_eq (ps : List PageResult) :
    ∀ (groups : List (String × List (List Int))) (t : String) (c : List Int),
      (groupKeys groups ++ runTypesFrom t ps).Nodup →
      emissionFlatten (chunkLoop groups t c ps)
        = emissionFlatten groups ++ c ++ ps.map PageResult.page_index := by
  induction ps with
  | nil =>
    intro groups t c hnd
    have ht : t ∉ groupKeys groups := by
      have hd := List.disjoint_of_nodup_append hnd
      intro hm
      exact hd hm (by simp [runTypesFrom])
    simp [chunkLoop, setdefaultAppend_of_not_mem groups t c ht,
      emissionFlatten_append, emissionFlatten_cons, emissionFlatten]
  | cons p rest ih =>
    intro groups t c hnd
    by_cases h : p.doc_type = t
    · simp only [chunkLoop, if_pos h, List.map_cons]
      have hnd' : (groupKeys groups ++ runTypesFrom t rest).Nodup := by
        simpa [runTypesFrom, h] using hnd
      rw [ih groups t (c ++ [p.page_index]) hnd']
      simp [List.append_assoc]
    · simp only [chunkLoop, if_neg h, List.map_cons]
      have ht : t ∉ groupKeys groups := by
        have hd := List.disjoint_of_nodup_append hnd
        intro hm
        refine hd hm ?_
        simp [runTypesFrom, h]
      have hkeys : groupKeys (setdefaultAppend groups t c) = groupKeys groups ++ [t] := by
        rw [groupKeys_setdefaultAppend, if_neg ht]
      have hnd' : (groupKeys (setdefaultAppend groups t c)
          ++ runTypesFrom p.doc_type rest).Nodup := by
        rw [hkeys, List.append_assoc]
        simpa [runTypesFrom, h] using hnd
      rw [ih (setdefaultAppend groups t c) p.doc_type [p.page_index] hnd',
        setdefaultAppend_of_not_mem groups t c ht, emissionFlatten_append]
      simp [emissionFlatten_cons, emissionFlatten, List.append_assoc]

theorem dedupFAux_congr (l : List String) :
    ∀ (s1 s2 : List String), (∀ x, x ∈ s1 ↔ x ∈ s2) →
      dedupFAux s1 l = dedupFAux s2 l := by
  induction l with
  | nil => intro s1 s2 _; rfl
  | cons t ts ih =>
    intro s1 s2 hs
    by_cases h : t ∈ s1
    · rw [dedupFAux, dedupFAux, if_pos h, if_pos ((hs t).mp h)]
      exact ih s1 s2 hs
    · rw [dedupFAux, dedupFAux, if_neg h, if_neg (fun hc => h ((hs t).mpr hc))]
      refine congrArg (t :: ·) (ih _ _ ?_)
      intro x
      simp only [List.mem_cons]
      exact or_congr Iff.rfl (hs x)

theorem chunkLoop_keys (ps : List PageResult) :
    ∀ (groups : List (String × List (List Int))) (t : String) (c : List Int),
      groupKeys (chunkLoop groups t c ps)
        = groupKeys groups ++ dedupFAux (groupKeys groups) (runTypesFrom t ps) := by
  induction ps with
  | nil =>
    intro groups t c
    simp only [chunkLoop, runTypesFrom, groupKeys_setdefaultAppend, dedupFAux]
    by_cases h : t ∈ groupKeys groups
    · simp [h]
    · simp [h]
  | cons p rest ih =>
    intro groups t c
    by_cases h : p.doc_type = t
    · simp only [chunkLoop, if_pos h, runTypesFrom, if_pos h]
      exact ih groups t (c ++ [p.page_index])
    · simp only [chunkLoop, if_neg h, runTypesFrom, if_neg h]
      rw [ih (setdefaultAppend groups t c) p.doc_type [p.page_index],
        groupKeys_setdefaultAppend]
      by_cases hm : t ∈ groupKeys groups
      · rw [if_pos hm, dedupFAux, if_pos hm]
      · rw [if_neg hm, dedupFAux, if_neg hm, List.append_assoc]
        refine congrArg (groupKeys groups ++ ·) ?_
        refine congrArg (t :: ·) ?_
        refine dedupFAux_congr _ _ _ ?_
        intro x
        simp [List.mem_append, List.mem_cons, or_comm]

/-- C1 amended: the emitted spans always partition the original index
sequence (no gap, duplicate or overlap — their concatenation is a
permutation of it), the dict keys appear in first-appearance order of
the run types, and the emission-order concatenation reconstructs the
exact original sequence whenever no `doc_type` recurs in a later,
non-adjacent run. -/
theorem c1_grouping (pages : List PageResult) :
    (emissionFlatten (chunk_consecutive_by_type pages)).Perm
        (pages.map PageResult.page_index) ∧
    groupKeys (chunk_consecutive_by_type pages) = dedupF (runTypes pages) ∧
    ((runTypes pages).Nodup →
      emissionFlatten (chunk_consecutive_by_type pages)
        = pages.map PageResult.page_index) := by
  cases pages with
  | nil => exact ⟨List.Perm.refl _, rfl, fun _ => rfl⟩
  | cons p rest =>
    refine ⟨?_, ?_, ?_⟩
    · have := chunkLoop_flatten_perm rest [] p.doc_type [p.page_index]
      simpa [chunk_consecutive_by_type, emissionFlatten] using this
    · have := chunkLoop_keys rest [] p.doc_type [p.page_index]
      simpa [chunk_consecutive_by_type, groupKeys, dedupF, runTypes] using this
    · intro hnd
      have := chunkLoop_flatten_eq rest [] p.doc_type [p.page_index]
        (by simpa [groupKeys, runTypes] using hnd)
      simpa [chunk_consecutive_by_type, emissionFlatten] using this

/-- C1 fails as stated: on the page-type sequence A, B, A (indices
0, 1, 2) the two A-runs share one dict key, so concatenating the
emitted groups' spans in emission order yields 0, 2, 1 — not the
original index sequence. -/
theorem c1_counterexample :
    chunk_consecutive_by_type
        [⟨0, "TaxInvoice", 1, none, none⟩, ⟨1, "EWayBill", 1, none, none⟩,
         ⟨2, "TaxInvoice", 1, none, none⟩]
      = [("TaxInvoice", [[0], [2]]), ("EWayBill", [[1]])] ∧
    emissionFlatten
        (chunk_consecutive_by_type
          [⟨0, "TaxInvoice", 1, none, none⟩, ⟨1, "EWayBill", 1, none, none⟩,
           ⟨2, "TaxInvoice", 1, none, none⟩])
      = [0, 2, 1] ∧
    ([0, 2, 1] : List Int) ≠ [0, 1, 2] :=
  ⟨rfl, rfl, by decide⟩

/-- C1 witness: the spec's end-to-end example (TaxInvoice, TaxInvoice,
EWayBill) has pairwise-distinct run types, so the reconstruction
conclusion applies and yields the exact sequence 0, 1, 2. -/
theorem c1_grouping_witness :
    emissionFlatten
        (chunk_consecutive_by_type
          [⟨0, "TaxInvoice", 0.9, none, none⟩, ⟨1, "TaxInvoice", 0.85, none, none⟩,
           ⟨2, "EWayBill", 0.8, none, none⟩])
      = [0, 1, 2] :=
  (c1_grouping
    [⟨0, "TaxInvoice", 0.9, none, none⟩, ⟨1, "TaxInvoice", 0.85, none, none⟩,
     ⟨2, "EWayBill", 0.8, none, none⟩]).2.2 (by decide)

/-! ### C2: field-level merge -/

theorem dlookup_dset_self (d : JDict) (k : String) (v : JVal) :
    dlookup (dset d k v) k = some v := by
  induction d with
  | nil => simp [dset, dlookup]
  | cons kv rest ih =>
    obtain ⟨k', w⟩ := kv
    by_cases h : k' = k
    · simp [dset, dlookup, h]
    · simp [dset, dlookup, h, ih]

/-- C2: the merge law.  Field by field, pages in ascending order: an
absent key takes the page's value (appended); list meets list
concatenates (page's list appended); null meets non-null is replaced;
anything else keeps the accumulator's first-seen value; `pages_used`
is finally set to the full flattened span.  The three concrete
instances of the claim are included verbatim. -/
theorem c2_merge_law :
    (∀ (acc : JDict) (k : String) (v : JVal),
      dlookup acc k = none → mergeStep acc k v = acc ++ [(k, v)]) ∧
    (∀ (acc : JDict) (k : String) (ws vs : List JVal),
      dlookup acc k = some (.arr ws) →
      dlookup (mergeStep acc k (.arr vs)) k = some (.arr (ws ++ vs))) ∧
    (∀ (acc : JDict) (k : String) (v : JVal),
      dlookup acc k = some .null → isNull v = false →
      dlookup (mergeStep acc k v) k = some v) ∧
    (∀ (acc : JDict) (k : String) (v w : JVal),
      dlookup acc k = some w →
      ¬(isArr w = true ∧ isArr v = true) →
      ¬(isNull w = true ∧ isNull v = false) →
      mergeStep acc k v = acc) ∧
    (∀ (records : List JDict) (flat : List Int),
      dlookup (combineGroup records flat) "pages_used" = some (spanArr flat)) ∧
    mergePage (mergePage [] [("a", .num 1)]) [("a", .null)] = [("a", .num 1)] ∧
    mergePage (mergePage [] [("items", .arr [.num 1])]) [("items", .arr [.num 2])]
      = [("items", .arr [.num 1, .num 2])] ∧
    mergePage (mergePage [] [("a", .null)]) [("a", .num 5)] = [("a", .num 5)] := by
  refine ⟨?_, ?_, ?_, ?_, ?_, rfl, rfl, rfl⟩
  · intro acc k v h
    simp [mergeStep, h]
  · intro acc k ws vs h
    simp [mergeStep, h, dlookup_dset_self]
  · intro acc k v h hv
    cases v <;> simp_all [mergeStep, isNull, dlookup_dset_self]
  · intro acc k v w h harr hnull
    cases w <;> cases v <;> simp_all [mergeStep, isArr, isNull]
  · intro records flat
    simp [combineGroup, dlookup_dset_self]

/-- C2 witness: the merge law applied at concrete inputs — an absent
key is inserted, and a null accumulator value is replaced by 5. -/
theorem c2_merge_law_witness :
    mergeStep [] "a" (.num 1) = [("a", .num 1)] ∧
    dlookup (mergeStep [("a", JVal.null)] "a" (.num 5)) "a" = some (.num 5) :=
  ⟨c2_merge_law.1 [] "a" (.num 1) rfl,
   c2_merge_law.2.2.1 [("a", JVal.null)] "a" (.num 5) rfl rfl⟩

/-! ### Shared facts about the per-page workflow -/

theorem docTypeResolve_mem (v : JVal) : docTypeResolve v ∈ TYPE_ORDER := by
  have hu : "Unknown" ∈ TYPE_ORDER := by decide
  cases v with
  | str s =>
    by_cases h : s ∈ TYPE_ORDER
    · simp [docTypeResolve, h]
    · simpa [docTypeResolve, h] using hu
  | null => exact hu
  | bool b => exact hu
  | num q => exact hu
  | arr xs => exact hu
  | obj kvs => exact hu

theorem clamp01_nonneg (x : ℚ) : 0 ≤ clamp01 x := by
  unfold clamp01 rmax rmin
  split_ifs <;> linarith

theorem clamp01_le_one (x : ℚ) : clamp01 x ≤ 1 := by
  unfold clamp01 rmax rmin
  split_ifs <;> linarith

/-- Inversion of a successful `processPageTry` run: the classification
reply was a dict `d`, the extraction reply was some value `ext`, and
the returned fields are exactly the normalizations the code applies to
them. -/
theorem processPageTry_ok_inv (env : PageEnv) (i : Int) (r : PageResult × JVal)
    (h : processPageTry env i = .ok r) :
    ∃ d ext,
      env.classifyReply = Except.ok (.obj d) ∧
      env.extractReply = Except.ok ext ∧
      r.1.doc_type = docTypeResolve ((dlookup d "doc_type").getD (.str "Unknown")) ∧
      r.1.confidence
        = clamp01 ((pyFloat ((dlookup d "confidence").getD (.num 0))).getD 0) ∧
      (dlookup d "page_index" = none → r.1.page_index = i) ∧
      r.2 = (match ext with
             | .obj de => JVal.obj (dset de "pages_used" (.arr [.num (i : ℚ)]))
             | v => v) := by
  unfold processPageTry at h
  cases hct : env.createThread with
  | error e => simp [hct] at h
  | ok tid =>
  simp only [hct] at h
  cases hsc : env.sendClassify with
  | error e => simp [hsc] at h
  | ok u =>
  simp only [hsc] at h
  cases hcr : env.classifyReply with
  | error e => simp [hcr] at h
  | ok cls =>
  simp only [hcr] at h
  cases cls with
  | obj d =>
    simp only at h
    cases hse : env.sendExtract with
    | error e => simp [hse] at h
    | ok u2 =>
    simp only [hse] at h
    cases her : env.extractReply with
    | error e => simp [her] at h
    | ok ext =>
    simp only [her] at h
    refine ⟨d, ext, rfl, rfl, ?_⟩
    cases hpi : dlookup d "page_index" with
    | none =>
      simp only [hpi] at h
      cases h
      exact ⟨rfl, rfl, fun _ => rfl, rfl⟩
    | some v =>
      simp only [hpi] at h
      cases hint : pyInt v with
      | error e => simp [hint] at h
      | ok n =>
        simp only [hint] at h
        cases h
        refine ⟨rfl, rfl, ?_, rfl⟩
        intro hno
        simp [hpi] at hno
  | null => simp at h
  | bool b => simp at h
  | num q => simp at h
  | str s => simp at h
  | arr xs => simp at h

/-! ### C3: failure isolation -/

theorem ocrProcessPagesFrom_get? (envs : List PageEnv) :
    ∀ (k j : Nat),
      (ocrProcessPagesFrom k envs).get? j
        = (envs.get? j).map (fun e => process_page_with_thread e ((k + j : Nat) : Int)) := by
  induction envs with
  | nil => intro k j; simp [ocrProcessPagesFrom]
  | cons e rest ih =>
    intro k j
    cases j with
    | zero => simp [ocrProcessPagesFrom]
    | succ j' =>
      simp only [ocrProcessPagesFrom, List.get?_cons_succ, ih (k + 1) j']
      have : k + 1 + j' = k + (j' + 1) := by omega
      rw [this]

/-- C3: every failure of a page's workflow (missing assistants or any
exception of the `try` body) yields exactly the degraded result
`doc_type = Unknown`, `confidence = 0`, empty extraction dict, at that
page's own index; and the gathered batch list is pointwise the
independent per-page computation, so one failing page leaves every
sibling's entry untouched. -/
theorem c3_degraded_isolation :
    (∀ (env : PageEnv) (i : Int), pageFailed env i →
      process_page_with_thread env i = degradedResult i) ∧
    (∀ (envs : List PageEnv) (j : Nat),
      (ocrProcessPages envs).get? j
        = (envs.get? j).map (fun e => process_page_with_thread e (j : Int))) := by
  constructor
  · intro env i hf
    unfold process_page_with_thread
    rcases hf with hok | ⟨e, he⟩
    · simp [hok]
    · cases hok : env.assistantsOk <;> simp [hok, he]
  · intro envs j
    have := ocrProcessPagesFrom_get? envs 0 j
    simpa [ocrProcessPages] using this

/-- C3 witness: a page whose classification call raises degrades to
`Unknown`/0/empty at its own index, while the sibling page's batch
entry is its own successful result. -/
theorem c3_degraded_isolation_witness :
    process_page_with_thread envFailSample 0 = degradedResult 0 ∧
    (ocrProcessPages [envFailSample, envOkSample]).get? 1
      = some (process_page_with_thread envOkSample 1) := by
  constructor
  · exact c3_degraded_isolation.1 envFailSample 0
      (Or.inr ⟨"ServiceUnavailable", rfl⟩)
  · rw [c3_degraded_isolation.2]
    rfl

/-! ### C5: classification invariants -/

/-- C5: every produced classification has clamped confidence in `[0, 1]`
(unparseable values become 0 before clamping) and a `doc_type` inside
the closed `TYPE_ORDER` enumeration, on both processing paths: the
per-page thread workflow (including its degraded results) and the
`classify_pages` chat path (whenever it returns a result at all). -/
theorem c5_classification_invariants :
    (∀ (env : PageEnv) (i : Int),
      0 ≤ (process_page_with_thread env i).1.confidence ∧
      (process_page_with_thread env i).1.confidence ≤ 1 ∧
      (process_page_with_thread env i).1.doc_type ∈ TYPE_ORDER) ∧
    (∀ (obj : JVal) (i : Int) (pr : PageResult),
      classifyOne obj i = .ok pr →
      0 ≤ pr.confidence ∧ pr.confidence ≤ 1 ∧ pr.doc_type ∈ TYPE_ORDER) := by
  have hdeg : ∀ j : Int,
      0 ≤ (degradedResult j).1.confidence ∧ (degradedResult j).1.confidence ≤ 1 ∧
      (degradedResult j).1.doc_type ∈ TYPE_ORDER := fun _ =>
    ⟨le_refl 0, by norm_num [degradedResult], by
      show "Unknown" ∈ TYPE_ORDER
      decide⟩
  constructor
  · intro env i
    unfold process_page_with_thread
    cases hok : env.assistantsOk with
    | false => exact hdeg i
    | true =>
      cases htry : processPageTry env i with
      | error e => exact hdeg i
      | ok r =>
        show 0 ≤ r.1.confidence ∧ r.1.confidence ≤ 1 ∧ r.1.doc_type ∈ TYPE_ORDER
        obtain ⟨d, ext, _, _, hdt, hconf, _, _⟩ := processPageTry_ok_inv env i r htry
        rw [hdt, hconf]
        exact ⟨clamp01_nonneg _, clamp01_le_one _, docTypeResolve_mem _⟩
  · intro obj i pr h
    cases obj with
    | obj d =>
      unfold classifyOne at h
      cases hpi : (match dlookup d "page_index" with
                   | none => Except.ok i
                   | some v => if jFalsy v then Except.ok i else pyInt v) with
      | error e => simp [hpi] at h
      | ok n =>
        simp only [hpi] at h
        cases h
        exact ⟨clamp01_nonneg _, clamp01_le_one _, docTypeResolve_mem _⟩
    | null => simp [classifyOne] at h
    | bool b => simp [classifyOne] at h
    | num q => simp [classifyOne] at h
    | str s => simp [classifyOne] at h
    | arr xs => simp [classifyOne] at h

/-- C5 witness: a reply with `doc_type` outside the closed set and
confidence 7 yields `Unknown` with confidence clamped to 1, inside the
required bounds. -/
theorem c5_classification_invariants_witness :
    0 ≤ (clamp01 7) ∧ clamp01 7 ≤ 1 ∧ "Unknown" ∈ TYPE_ORDER := by
  have h := c5_classification_invariants.2
    (.obj [("doc_type", .str "Bogus"), ("confidence", .num 7)]) 0
    ⟨0, "Unknown", clamp01 7, none, none⟩ rfl
  exact h

/-! ### C4: retry policy -/

/-- C4: evaluation of the retry loops.  A permanently transient signal
(503, or a transport exception) is retried up to 4 total attempts with
sleeps 1.25, 2.5, 5 seconds and then surfaces HTTP 502 — that part of
the claim matches the code.  But a permanently NON-transient signal
(HTTP 400) produces exactly the same trace: the immediately-raised
`HTTPException` is caught by the blanket `except Exception` handler
and retried, contradicting the claim's "fails immediately without
retry".  `openai_json_response` likewise retries every exception and
even sleeps a further 10 seconds after the final failed attempt. -/
theorem c4_retry_behaviour :
    create_openai_thread_retry (fun _ => .status 503)
      = ⟨4, [1.25, 2.5, 5], false⟩ ∧
    create_openai_thread_retry (fun _ => .exn)
      = ⟨4, [1.25, 2.5, 5], false⟩ ∧
    create_openai_thread_retry (fun _ => .status 400)
      = ⟨4, [1.25, 2.5, 5], false⟩ ∧
    create_openai_thread_retry (fun _ => .status 200) = ⟨1, [], true⟩ ∧
    openai_json_response_retry (fun _ => false)
      = ⟨4, [1.25, 2.5, 5, 10], false⟩ := by
  refine ⟨?_, ?_, ?_, ?_, ?_⟩
  · simp only [create_openai_thread_retry, ctLoop, RETRY_MAX, RETRY_BASE_DELAY,
      transientCodes]
    norm_num
  · simp only [create_openai_thread_retry, ctLoop, RETRY_MAX, RETRY_BASE_DELAY]
    norm_num
  · simp only [create_openai_thread_retry, ctLoop, RETRY_MAX, RETRY_BASE_DELAY,
      transientCodes]
    norm_num
  · simp [create_openai_thread_retry, ctLoop, RETRY_MAX]
  · simp only [openai_json_response_retry, ojrLoop, RETRY_MAX, RETRY_BASE_DELAY]
    norm_num

/-! ### C6: completion polling -/

theorem pollNext_le_two (d : ℚ) : pollNext d ≤ 2 := min_le_right _ _

theorem pollNext_pow_min (d : ℚ) (i : Nat) :
    min (pollNext d * (1.5 : ℚ) ^ i) 2 = min (d * (1.5 : ℚ) ^ (i + 1)) 2 := by
  have hpow : (0:ℚ) ≤ (1.5 : ℚ) ^ i := by positivity
  have hone : (1:ℚ) ≤ (1.5 : ℚ) ^ i := one_le_pow₀ (by norm_num)
  rw [pollNext, min_mul_of_nonneg _ _ hpow, min_assoc]
  have h2 : min (2 * (1.5 : ℚ) ^ i) 2 = 2 := min_eq_right (by nlinarith)
  rw [h2]
  have harg : d * (1.5 : ℚ) * (1.5 : ℚ) ^ i = d * (1.5 : ℚ) ^ (i + 1) := by ring
  rw [harg]

theorem pollLoop_nonterminal (s : String) (rest : List String) (d : ℚ)
    (h1 : ¬s = "completed") (h2 : s ∉ terminalFailures) :
    pollLoop (s :: rest) d
      = (d :: (pollLoop rest (pollNext d)).1, (pollLoop rest (pollNext d)).2) := by
  simp [pollLoop, h1, h2]

theorem pollLoop_delay_closed (sts : List String) :
    ∀ (d : ℚ), d ≤ 2 → ∀ (i : Nat), i < (pollLoop sts d).1.length →
      (pollLoop sts d).1.get? i = some (min (d * (1.5 : ℚ) ^ i) 2) := by
  induction sts with
  | nil => intro d _ i h; simp [pollLoop] at h
  | cons s rest ih =>
    intro d hd i h
    by_cases hc : s = "completed"
    · simp [pollLoop, hc] at h
    · by_cases ht : s ∈ terminalFailures
      · simp [pollLoop, hc, ht] at h
      · rw [pollLoop_nonterminal s rest d hc ht] at h ⊢
        cases i with
        | zero =>
          simp only [List.get?_cons_zero, Option.some.injEq]
          rw [pow_zero, mul_one, min_eq_left hd]
        | succ i' =>
          simp only [List.get?_cons_succ]
          simp only [List.length_cons, Nat.succ_lt_succ_iff] at h
          rw [ih (pollNext d) (pollNext_le_two d) i' h, pollNext_pow_min]

theorem pollLoop_replicate_queued (n : Nat) :
    ∀ d : ℚ,
      (pollLoop (List.replicate n "queued") d).1.length = n ∧
      (pollLoop (List.replicate n "queued") d).2 = .stillPolling := by
  induction n with
  | zero => intro d; exact ⟨rfl, rfl⟩
  | succ n' ih =>
    intro d
    have hq1 : ¬("queued" : String) = "completed" := by decide
    have hq2 : ("queued" : String) ∉ terminalFailures := by decide
    rw [List.replicate_succ, pollLoop_nonterminal _ _ _ hq1 hq2]
    simp [ih (pollNext d)]

/-- C6: the polling state machine.  Along any observed status stream:
the i-th sleep equals `min(0.1 * 1.5 ^ i, 2)` (backoff starts at 0.1,
multiplies by 1.5, caps at 2); a `completed` status exits immediately
to fetching the reply; a `failed`/`cancelled`/`expired` status is
terminal and raises instead of returning a reply; any other status
sleeps and polls again; and no overall bound exists — an all-`queued`
stream of any length n is polled n times and leaves the loop still
polling. -/
theorem c6_poll_state_machine :
    (∀ (sts : List String) (i : Nat), i < (run_thread_poll sts).1.length →
      (run_thread_poll sts).1.get? i = some (min ((0.1 : ℚ) * (1.5 : ℚ) ^ i) 2)) ∧
    (∀ rest : List String,
      run_thread_poll ("completed" :: rest) = ([], .completed)) ∧
    (∀ (s : String) (rest : List String) (d : ℚ), s ∈ terminalFailures →
      pollLoop (s :: rest) d = ([], .runFailed s)) ∧
    (∀ (s : String) (rest : List String) (d : ℚ),
      ¬s = "completed" → s ∉ terminalFailures →
      pollLoop (s :: rest) d
        = (d :: (pollLoop rest (pollNext d)).1, (pollLoop rest (pollNext d)).2)) ∧
    (∀ n : Nat,
      (run_thread_poll (List.replicate n "queued")).1.length = n ∧
      (run_thread_poll (List.replicate n "queued")).2 = .stillPolling) := by
  refine ⟨?_, ?_, ?_, ?_, ?_⟩
  · intro sts i h
    exact pollLoop_delay_closed sts 0.1 (by norm_num) i h
  · intro rest
    simp [run_thread_poll, pollLoop]
  · intro s rest d h
    have hc : ¬s = "completed" := by
      intro heq
      subst heq
      revert h
      decide
    simp [pollLoop, hc, h]
  · exact pollLoop_nonterminal
  · intro n
    exact pollLoop_replicate_queued n 0.1

/-- C6 witness: on the stream queued-then-completed the loop sleeps
once, the first delay satisfies the closed backoff form, and a
`failed` status is terminal. -/
theorem c6_poll_state_machine_witness :
    (run_thread_poll ["queued", "completed"]).1.get? 0
      = some (min ((0.1 : ℚ) * (1.5 : ℚ) ^ 0) 2) ∧
    pollLoop ["failed"] 0.1 = ([], .runFailed "failed") :=
  ⟨c6_poll_state_machine.1 ["queued", "completed"] 0 (by decide),
   c6_poll_state_machine.2.2.1 "failed" [] 0.1 (by decide)⟩

/-! ### C7: reply-parsing fallback chain -/

/-- C7 fails as stated: this reply's first fenced code block contains
the valid JSON object from the second conjunct, yet the whole chain
fails (returns the malformed-reply error), because the extraction
regex requires the closing fence to follow the brace group directly
and the block carries trailing text after the object. -/
theorem c7_counterexample :
    parseReplyChain ("reply:\n```json\n" ++ "\x7b\"a\": 1\x7d" ++ "\nEND\n```")
      = none ∧
    json_loads "\x7b\"a\": 1\x7d" = some (.obj [("a", .num 1)]) :=
  ⟨rfl, rfl⟩

/-- C7 amended: the chain is an ordered fallback with first success
winning — raw parse, then strip/BOM-clean parse, then fenced-block
extraction composed with parsing, and `none` (the malformed-reply
error) only when all three fail.  Step (3) is exactly the regex
extraction composed with `json_loads`; it succeeds when the first
fenced block's content is exactly one JSON object directly before the
closing fence (shown on a nested-object instance), but not necessarily
whenever the block merely contains a valid object (see the
counterexample). -/
theorem c7_parse_chain :
    (∀ (s : String) (v : JVal),
      json_loads s = some v → parseReplyChain s = some v) ∧
    (∀ (s : String) (v : JVal),
      json_loads s = none → json_loads (pyCleaned s) = some v →
      parseReplyChain s = some v) ∧
    (∀ s : String,
      json_loads s = none → json_loads (pyCleaned s) = none →
      parseReplyChain s = (extract_markdown_json s).bind json_loads) ∧
    parseReplyChain ("blah\n```json\n" ++ "\x7b\"a\": \x7b\"b\": 2\x7d\x7d" ++ "\n```")
      = some (.obj [("a", .obj [("b", .num 2)])]) := by
  refine ⟨?_, ?_, ?_, rfl⟩
  · intro s v h
    simp [parseReplyChain, h]
  · intro s v h1 h2
    simp [parseReplyChain, h1, h2]
  · intro s h1 h2
    simp only [parseReplyChain, h1, h2]
    cases he : extract_markdown_json s <;> simp [he]

/-- C7 witness: on a reply with no JSON at all, the chain reaches and
returns the step-3 result. -/
theorem c7_parse_chain_witness :
    parseReplyChain "x" = (extract_markdown_json "x").bind json_loads :=
  c7_parse_chain.2.2.1 "x" rfl rfl

/-! ### C9: index alignment -/

/-- C9 fails as stated: input page 2's classification reply carries
`page_index = 7`, and the returned third `PageResult` copies that
value — its `page_index` field is 7, not 2. -/
theorem c9_counterexample :
    (ocrPageResults [envOkSample, envOkSample, envPageIdx7]).get? 2
      = some ⟨7, "TaxInvoice", 1, none, none⟩ ∧ (7 : Int) ≠ 2 :=
  ⟨rfl, by decide⟩

/-- C9 amended: the i-th element of `page_results` is always the result
of processing input page i (gather preserves task order, independent of
completion order), and its `page_index` field equals i whenever the
classification reply does not supply a `page_index` value (in
particular on every degraded page); a reply-supplied value is parsed
with `int()` and copied, and may differ from i. -/
theorem c9_alignment :
    (∀ (envs : List PageEnv) (j : Nat),
      (ocrPageResults envs).get? j
        = (envs.get? j).map (fun e => (process_page_with_thread e (j : Int)).1)) ∧
    (∀ (env : PageEnv) (i : Int),
      (∀ d, env.classifyReply = Except.ok (.obj d) → dlookup d "page_index" = none) →
      (process_page_with_thread env i).1.page_index = i) := by
  constructor
  · intro envs j
    have h := ocrProcessPagesFrom_get? envs 0 j
    simp only [ocrPageResults, ocrProcessPages]
    rw [List.get?_map, h]
    cases envs.get? j <;> simp
  · intro env i hno
    unfold process_page_with_thread
    cases hok : env.assistantsOk with
    | false => rfl
    | true =>
      cases htry : processPageTry env i with
      | error e => rfl
      | ok r =>
        show r.1.page_index = i
        obtain ⟨d, _, hcr, _, _, _, hpi, _⟩ := processPageTry_ok_inv env i r htry
        exact hpi (hno d hcr)

/-- C9 witness: a reply without a `page_index` field yields a result
stamped with the input page index. -/
theorem c9_alignment_witness :
    (process_page_with_thread envOkSample 5).1.page_index = 5 :=
  c9_alignment.2 envOkSample 5 (by
    intro d hd
    injection hd with h1
    injection h1 with h2
    subst h2
    rfl)

/-! ### C10: `pages_used` stamping -/

/-- C10 fails as stated: the extraction reply of this successful page
already carries `pages_used = [9]`, yet the per-page path overwrites it
with the input page index, returning `pages_used = [2]`. -/
theorem c10_counterexample :
    (process_page_with_thread envOkSample 2).2
      = .obj [("invoice_no", .str "X1"), ("pages_used", .arr [.num 2])] ∧
    envOkSample.extractReply
      = .ok (.obj [("invoice_no", .str "X1"), ("pages_used", .arr [.num 9])]) ∧
    ¬(JVal.arr [.num 2] = JVal.arr [.num 9]) := by
  refine ⟨rfl, rfl, ?_⟩
  intro h
  injection h with h1
  injection h1 with h2 h3
  injection h2 with h4
  norm_num at h4

/-- C10 amended: the per-page processor stamps
`pages_used = [pageIndex]` unconditionally on every successful page
with a dict-shaped extraction reply — a reply-provided value is
discarded, not preserved.  Only the group-level `extract_for_group`
implements the claimed conditional stamping: a present `pages_used`
is preserved, an absent one is set to the flattened span. -/
theorem c10_pages_used :
    (∀ (env : PageEnv) (i : Int) (r : PageResult × JVal),
      processPageTry env i = .ok r →
      ∀ dd, r.2 = .obj dd →
        dlookup dd "pages_used" = some (.arr [.num (i : ℚ)])) ∧
    (∀ (spans : List (List Int)) (d : JDict),
      dhasKey d "pages_used" = true →
      extract_for_group true spans (.obj d) = .obj d) ∧
    (∀ (spans : List (List Int)) (d : JDict),
      dhasKey d "pages_used" = false →
      extract_for_group true spans (.obj d)
        = .obj (dset d "pages_used" (spanArr (flattenSpans spans)))) := by
  refine ⟨?_, ?_, ?_⟩
  · intro env i r htry dd hdd
    obtain ⟨d, ext, _, _, _, _, _, hr2⟩ := processPageTry_ok_inv env i r htry
    cases ext with
    | obj de =>
      have h := hdd.symm.trans hr2
      injection h with h2
      subst h2
      exact dlookup_dset_self de "pages_used" _
    | null => exact JVal.noConfusion (hdd.symm.trans hr2)
    | bool b => exact JVal.noConfusion (hdd.symm.trans hr2)
    | num q => exact JVal.noConfusion (hdd.symm.trans hr2)
    | str s => exact JVal.noConfusion (hdd.symm.trans hr2)
    | arr xs => exact JVal.noConfusion (hdd.symm.trans hr2)
  · intro spans d h
    simp [extract_for_group, h]
  · intro spans d h
    simp [extract_for_group, h]

/-- C10 witness: the per-page overwrite evaluated on the sample page
(reply said `pages_used = [9]`, the record carries `[2]`), and the
group-level conditional stamping on a present key. -/
theorem c10_pages_used_witness :
    dlookup [("invoice_no", JVal.str "X1"), ("pages_used", JVal.arr [JVal.num 2])]
        "pages_used" = some (.arr [.num 2]) ∧
    extract_for_group true [[0, 1]] (.obj [("pages_used", JVal.arr [JVal.num 9])])
      = .obj [("pages_used", JVal.arr [JVal.num 9])] := by
  constructor
  · have h := c10_pages_used.1 envOkSample 2
      (⟨2, "TaxInvoice", 1, none, none⟩,
       .obj [("invoice_no", JVal.str "X1"), ("pages_used", JVal.arr [JVal.num 2])])
      rfl
      [("invoice_no", JVal.str "X1"), ("pages_used", JVal.arr [JVal.num 2])] rfl
    exact h
  · exact c10_pages_used.2.1 [[0, 1]] [("pages_used", JVal.arr [JVal.num 9])] rfl

/-! ### C8: streaming completion and sentinel -/

/-- C8 fails as stated, on both endpoints.  The concurrent stream ends
with a `complete` event that carries only page counts (no aggregate)
and is followed by no sentinel; its `error` event is likewise followed
by nothing.  The sequential stream's invalid-PDF `error` event is
yielded just before a bare `return`, so no sentinel follows it either. -/
theorem c8_counterexample :
    ocr_stream_concurrent 1 [Arrival.ok 0] none
      = [SEvent.start 1, SEvent.pageResult 0, SEvent.complete (.counts 1 1)] ∧
    ocr_stream_concurrent 1 [] (some (1, "boom"))
      = [SEvent.start 1, SEvent.error "boom"] ∧
    ocr_stream_sequential false []
      = [SEvent.status "Processing started...", SEvent.error "Invalid PDF"] :=
  ⟨rfl, rfl, rfl⟩

theorem not_done_of_mem_concurrent (n : Nat) (arrivals : List Arrival)
    (e : SEvent) (he : e ∈ SEvent.start n ::
      arrivals.map (fun a =>
        match a with
        | .ok i => SEvent.pageResult i
        | .err i _ => SEvent.pageError i)
      ++ [SEvent.complete (.counts n (concProcessed n arrivals))]) :
    ¬e = SEvent.done := by
  rcases List.mem_cons.mp he with h0 | h1
  · subst h0; intro hc; cases hc
  · rcases List.mem_append.mp h1 with hm | hlast
    · rcases List.mem_map.mp hm with ⟨a, _, ha⟩
      cases a with
      | ok i => rw [← ha]; intro hc; cases hc
      | err i m => rw [← ha]; intro hc; cases hc
    · rcases List.mem_singleton.mp hlast with rfl
      intro hc; cases hc

/-- C8 amended: only the sequential endpoint satisfies the claim, and
only outside its invalid-PDF path.  Sequential: a completed run ends
with a `complete` event carrying the whole aggregate response (grouped
and merged documents) followed by the `[DONE]` sentinel, and a
processing exception ends with an `error` event followed by `[DONE]` —
but the invalid-PDF `error` is final with no sentinel.  Concurrent:
the run ends with a `complete` event carrying only total/processed
counts, and no sentinel ever appears, after `complete` or `error`. -/
theorem c8_stream_events :
    (∀ (envs : List PageEnv) (groups : List ExtractedGroup),
      buildGroups (ocrPageResults envs) (ocrExtractionData envs) = .ok groups →
      ∃ front, ocr_stream_sequential true envs
        = front ++ [SEvent.complete
            (.aggregate ⟨envs.length, ocrPageResults envs, groups⟩), SEvent.done]) ∧
    (∀ (envs : List PageEnv) (m : String),
      buildGroups (ocrPageResults envs) (ocrExtractionData envs) = .error m →
      ∃ front, ocr_stream_sequential true envs
        = front ++ [SEvent.error m, SEvent.done]) ∧
    (∀ envs : List PageEnv,
      ocr_stream_sequential false envs
        = [SEvent.status "Processing started...", SEvent.error "Invalid PDF"]) ∧
    (∀ (n : Nat) (arrivals : List Arrival),
      (ocr_stream_concurrent n arrivals none).getLast?
        = some (SEvent.complete (.counts n (concProcessed n arrivals))) ∧
      ∀ e ∈ ocr_stream_concurrent n arrivals none, ¬e = SEvent.done) ∧
    (∀ (n : Nat) (arrivals : List Arrival) (k : Nat) (m : String),
      ∀ e ∈ ocr_stream_concurrent n arrivals (some (k, m)), ¬e = SEvent.done) := by
  refine ⟨?_, ?_, ?_, ?_, ?_⟩
  · intro envs groups h
    refine ⟨([SEvent.status "Processing started...", SEvent.status "Rendering pages...",
        SEvent.progress "render", SEvent.status "Processing pages..."]
        ++ (ocrPageResults envs).map (fun _ => SEvent.progress "process")
        ++ [SEvent.progress "classify_complete",
            SEvent.status "document groups found",
            SEvent.status "Combining extraction data..."])
        ++ groups.map (fun _ => SEvent.progress "combine"), ?_⟩
    simp only [ocr_stream_sequential, if_pos rfl, h]
    simp [List.append_assoc]
  · intro envs m h
    refine ⟨[SEvent.status "Processing started...", SEvent.status "Rendering pages...",
        SEvent.progress "render", SEvent.status "Processing pages..."]
        ++ (ocrPageResults envs).map (fun _ => SEvent.progress "process")
        ++ [SEvent.progress "classify_complete",
            SEvent.status "document groups found",
            SEvent.status "Combining extraction data..."], ?_⟩
    simp only [ocr_stream_sequential, if_pos rfl, h]
    simp [List.append_assoc]
  · intro envs
    rfl
  · intro n arrivals
    constructor
    · show (SEvent.start n :: (_ ++ [SEvent.complete _])).getLast? = _
      rw [← List.cons_append, List.getLast?_concat]
    · intro e he
      exact not_done_of_mem_concurrent n arrivals e he
  · intro n arrivals k m e he
    simp only [ocr_stream_concurrent] at he
    rcases List.mem_append.mp he with htake | herr
    · exact not_done_of_mem_concurrent n arrivals e (List.mem_of_mem_take htake)
    · rcases List.mem_singleton.mp herr with rfl
      intro hc; cases hc

/-- C8 witness: a one-page sequential run ends with the aggregate
`complete` event followed by the sentinel. -/
theorem c8_stream_events_witness :
    ∃ front, ocr_stream_sequential true [envOkSample]
      = front ++ [SEvent.complete (.aggregate
          ⟨1, ocrPageResults [envOkSample],
           [⟨"TaxInvoice", [[0]],
             [("invoice_no", JVal.str "X1"),
              ("pages_used", JVal.arr [JVal.num 0])]⟩]⟩), SEvent.done] :=
  c8_stream_events.1 [envOkSample]
    [⟨"TaxInvoice", [[0]],
      [("invoice_no", JVal.str "X1"), ("pages_used", JVal.arr [JVal.num 0])]⟩] rfl

end OcrApi
